import Mathlib

/-!
Verification of the AIListHub automation script (`main.py`).

The script is a linear batch pipeline: fetch candidate tool listings from
GitHub Trending and an RSS feed, deduplicate them by (trimmed) url, optionally
generate a description through the Gemini API, and upsert each surviving
candidate into a MySQL `tools` table.  A module-level HTTP GET against the
ProductHunt API runs unconditionally at import time.

The embedding below translates each function of `main.py` into a pure Lean
function.  Exogenous effects (HTTP responses, the generative API, the MySQL
driver) are passed in as explicit oracle values; a Python exception arising
from such an effect is the `.raised` constructor of `PyOutcome`, and code that
lets an exception escape returns `.raised` itself, while code that catches it
returns `.ok`.  The MySQL `tools` table is a list of rows, and `NOW()` is an
explicit timestamp argument.
-/

/-- Result of running a piece of Python code: either a returned value or an
uncaught exception propagating to the caller. -/
inductive PyOutcome (α : Type) where
  | ok (val : α)
  | raised
  deriving Repr, DecidableEq

/-- The list carried by a fetcher outcome, empty when it raised (used only to
state membership facts uniformly). -/
def PyOutcome.okList {α : Type} : PyOutcome (List α) → List α
  | .ok l => l
  | .raised => []

/-- Python's `str.strip()` on a string viewed as a list of characters: drop
leading and trailing whitespace. -/
def pyStrip (s : List Char) : List Char :=
  ((s.dropWhile Char.isWhitespace).reverse.dropWhile Char.isWhitespace).reverse

/-- Python's `str.strip()` on a `String`. -/
def pyStripS (s : String) : String :=
  ⟨pyStrip s.toList⟩

/-- Python's `a or b` for a string `a` that is present: `a` unless it is the
empty string (falsy), in which case `b`. -/
def pyOrS (a b : String) : String := if a = "" then b else a

/-- Python's `a or b` for a url field held as a character list. -/
def pyOrL (a b : List Char) : List Char := if a = [] then b else a

/-- Python's `d.get(k) or b`: the key may be absent (`none`, i.e. `get`
returns `None`, falsy) or present but empty (falsy). -/
def pyOrOpt (a : Option String) (b : String) : String :=
  match a with
  | none => b
  | some s => if s = "" then b else s

/-- A candidate dict as produced by the fetchers in `main.py`: keys `name`,
`url`, `category`, `logo`, `source`, `short` are always set; `tags` and
`description` are never set by a fetcher (modelled as `Option`, `none` when
the key is absent from the dict). -/
structure Candidate where
  name : String
  url : List Char
  category : String
  logo : String
  source : String
  short : String
  tags : Option String
  description : Option String
  deriving Repr, DecidableEq

/-- The loop body of the deduplication step in `main` (`main.py` lines
277-286): skip a candidate whose stripped url is empty or already seen,
otherwise keep it and remember the stripped url. -/
def dedupeGo (seen : List (List Char)) : List Candidate → List Candidate
  | [] => []
  | c :: rest =>
    if pyStrip c.url = [] then dedupeGo seen rest
    else if pyStrip c.url ∈ seen then dedupeGo seen rest
    else c :: dedupeGo (pyStrip c.url :: seen) rest

/-- The deduplication step of `main`: `seen = set(); final = []; ...`. -/
def dedupe (candidates : List Candidate) : List Candidate :=
  dedupeGo [] candidates

theorem dedupeGo_sublist (seen : List (List Char)) (l : List Candidate) :
    (dedupeGo seen l).Sublist l := by
  induction l generalizing seen with
  | nil => simp [dedupeGo]
  | cons c rest ih =>
    simp only [dedupeGo]
    split
    · exact (ih seen).cons c
    · split
      · exact (ih seen).cons c
      · exact (ih _).cons₂ c

theorem dedupeGo_not_seen (seen : List (List Char)) (l : List Candidate) :
    ∀ c ∈ dedupeGo seen l, pyStrip c.url ∉ seen ∧ pyStrip c.url ≠ [] := by
  induction l generalizing seen with
  | nil => simp [dedupeGo]
  | cons c rest ih =>
    simp only [dedupeGo]
    split
    · exact ih seen
    · split
      · exact ih seen
      · intro d hd
        rw [List.mem_cons] at hd
        rcases hd with rfl | hd
        · exact ⟨by assumption, by assumption⟩
        · have h := ih (pyStrip c.url :: seen) d hd
          exact ⟨fun hmem => h.1 (List.mem_cons_of_mem _ hmem), h.2⟩

theorem dedupeGo_pairwise (seen : List (List Char)) (l : List Candidate) :
    (dedupeGo seen l).Pairwise (fun a b => pyStrip a.url ≠ pyStrip b.url) := by
  induction l generalizing seen with
  | nil => simp [dedupeGo]
  | cons c rest ih =>
    simp only [dedupeGo]
    split
    · exact ih seen
    · split
      · exact ih seen
      · refine List.Pairwise.cons ?_ (ih _)
        intro d hd heq
        have h := dedupeGo_not_seen (pyStrip c.url :: seen) rest d hd
        exact h.1 (heq ▸ List.mem_cons_self _ _)

theorem pyStrip_eq_nil_of_all_ws (s : List Char)
    (h : ∀ ch ∈ s, ch.isWhitespace) : pyStrip s = [] := by
  unfold pyStrip
  have h1 : s.dropWhile Char.isWhitespace = [] := by
    rw [List.dropWhile_eq_nil_iff]
    intro x hx
    exact h x hx
  rw [h1]
  simp

/-- Exogenous behaviour of the MySQL driver during one `upsert_tool` call:
whether `mysql.connector.connect`, `cur.execute`, or `conn.commit` raises. -/
structure DBConfig where
  connectRaises : Bool
  executeRaises : Bool
  commitRaises : Bool
  deriving Repr, DecidableEq

/-- The record dict built by `process_candidate` and consumed by
`upsert_tool`; all seven keys are always set. -/
structure Record where
  name : String
  url : List Char
  category : String
  description : String
  logo_url : String
  tags : String
  source : String
  deriving Repr, DecidableEq

/-- One row of the `tools` table. -/
structure Row where
  name : String
  url : List Char
  category : String
  description : String
  logo_url : String
  tags : String
  source : String
  updated_on : Nat
  deriving Repr, DecidableEq

/-- The row written for `record` at time `now`: the insert values, or the
`ON DUPLICATE KEY UPDATE` assignments plus `updated_on = NOW()`. -/
def recordRow (r : Record) (now : Nat) : Row :=
  ⟨r.name, r.url, r.category, r.description, r.logo_url, r.tags, r.source, now⟩

/-- Modelled from the spec: the `tools` table schema is not in the repository;
the spec's storage-schema section and data-model invariant say url is the
uniqueness constraint the `INSERT ... ON DUPLICATE KEY UPDATE` statement is
keyed on.  Effect of the statement on the table: update every row whose url
matches (all mutable columns overwritten, `updated_on = NOW()`), or append a
new row when none matches. -/
def applyUpsert (t : List Row) (r : Record) (now : Nat) : List Row :=
  if t.any (fun row => row.url = r.url) then
    t.map (fun row => if row.url = r.url then recordRow r now else row)
  else t ++ [recordRow r now]

/-- Outcome of one `upsert_tool` call: the Python return value (or an escaped
exception), whether a connection was opened and whether it was closed, and the
resulting `tools` table. -/
structure UpsertOutcome where
  result : PyOutcome Bool
  openedConnection : Bool
  closedConnection : Bool
  table : List Row
  deriving Repr, DecidableEq

/-- `upsert_tool(record, dry_run)` from `main.py` lines 121-156.  Dry-run
returns `True` before any connection is opened.  `get_db_connection()` is
called OUTSIDE the `try` block, so a connect exception escapes with no
connection to close.  Inside the `try`, an exception from `execute` or
`commit` is caught (logged, `False` returned) and the `finally` closes the
connection; an uncommitted transaction is rolled back on close, so the table
is unchanged unless `commit` succeeded. -/
def upsert_tool (record : Record) (dry_run : Bool) (db : DBConfig)
    (t : List Row) (now : Nat) : UpsertOutcome :=
  if dry_run then ⟨.ok true, false, false, t⟩
  else if db.connectRaises then ⟨.raised, false, false, t⟩
  else if db.executeRaises then ⟨.ok false, true, true, t⟩
  else if db.commitRaises then ⟨.ok false, true, true, t⟩
  else ⟨.ok true, true, true, applyUpsert t record now⟩

/-- Python truthiness of the `GEMINI_API_KEY` environment lookup:
`not GEMINI_API_KEY` is true when the variable is unset or empty. -/
def keyFalsy : Option String → Bool
  | none => true
  | some s => s = ""

/-- `re.sub(r'\n+', '\n', text)` on a character list: every maximal run of
newlines becomes a single newline.  `prevNL` records whether the previous
character was a newline already emitted for the current run. -/
def collapseNLGo (prevNL : Bool) : List Char → List Char
  | [] => []
  | c :: rest =>
    if c = '\n' then
      if prevNL then collapseNLGo true rest
      else '\n' :: collapseNLGo true rest
    else c :: collapseNLGo false rest

/-- `re.sub(r'\n+', '\n', text)` on a `String`. -/
def collapseNewlines (s : String) : String :=
  ⟨collapseNLGo false s.toList⟩

/-- Outcome of one `generate_description_gemini` call: the Python return
value (or an escaped exception) and whether the generative API was called. -/
structure GenOutcome where
  result : PyOutcome String
  networkCalled : Bool
  deriving Repr, DecidableEq

/-- `generate_description_gemini(name, category, url)` from `main.py` lines
94-119 (the second definition, which shadows the earlier one).  `genCall` is
the exogenous outcome of `model.generate_content` (and of `genai.configure`;
both sit inside the `try`).  Missing/empty credential: warn and return `""`
before any network activity.  Exception: log and return `""`.  Success:
return the response text stripped and with newline runs collapsed. -/
def generate_description_gemini (apiKey : Option String)
    (genCall : PyOutcome String) (name category : String) (url : List Char) :
    GenOutcome :=
  if keyFalsy apiKey then ⟨.ok "", false⟩
  else
    match genCall with
    | .raised => ⟨.ok "", true⟩
    | .ok text => ⟨.ok (collapseNewlines (pyStripS text)), true⟩

/-- The record-building half of `process_candidate` (`main.py` lines
235-255): default each field through Python `or`, generate a description when
the candidate has none and generation is enabled, and assemble the record
passed to `upsert_tool`.  A `.raised` result would be an exception escaping
from the generator (the generator never raises, proved below). -/
def build_record (apiKey : Option String) (genCall : PyOutcome String)
    (generate_desc : Bool) (cand : Candidate) : PyOutcome Record :=
  let name := pyOrS cand.name ""
  let url := pyOrL cand.url []
  let category := pyOrS cand.category (pyOrS cand.short "Misc")
  let logo := pyOrS cand.logo ""
  let source := pyOrS cand.source "unknown"
  let tags := pyOrOpt cand.tags ""
  let description := pyOrOpt cand.description ""
  let descOutcome : PyOutcome String :=
    if description = "" && generate_desc then
      (generate_description_gemini apiKey genCall name category url).result
    else .ok description
  match descOutcome with
  | .raised => .raised
  | .ok d => .ok ⟨name, url, category, d, logo, tags, source⟩

/-- Result of `process_candidate`: its return value (or escaped exception)
and the `tools` table afterwards. -/
structure StepResult where
  result : PyOutcome Bool
  table : List Row
  deriving Repr, DecidableEq

/-- `process_candidate(cand, generate_desc, dry_run)` from `main.py` lines
235-256: build the record, then `return upsert_tool(record, dry_run)`. -/
def process_candidate (apiKey : Option String) (genCall : PyOutcome String)
    (generate_desc dry_run : Bool) (db : DBConfig) (now : Nat)
    (cand : Candidate) (t : List Row) : StepResult :=
  match build_record apiKey genCall generate_desc cand with
  | .raised => ⟨.raised, t⟩
  | .ok record =>
    let o := upsert_tool record dry_run db t now
    ⟨o.result, o.table⟩

/-- Exogenous outcomes for one iteration of the orchestrator loop: the
generative-API call result, the MySQL driver behaviour, and the `NOW()`
timestamp of the upsert. -/
structure StepCfg where
  genCall : PyOutcome String
  db : DBConfig
  now : Nat

/-- Result of the orchestrator loop: the list of per-candidate `ok` booleans
(or an escaped exception) and the final `tools` table. -/
structure RunResult where
  result : PyOutcome (List Bool)
  table : List Row
  deriving Repr, DecidableEq

/-- The `for cand in final:` loop of `main` (`main.py` lines 290-293): call
`process_candidate` on each candidate in order; an exception escaping from
`process_candidate` aborts the loop, a `False` return is only logged. -/
def mainLoop (apiKey : Option String) (generate_desc dry_run : Bool)
    (oracle : Nat → StepCfg) : Nat → List Row → List Candidate → RunResult
  | _, t, [] => ⟨.ok [], t⟩
  | i, t, cand :: rest =>
    match process_candidate apiKey (oracle i).genCall generate_desc dry_run
        (oracle i).db (oracle i).now cand t with
    | ⟨.raised, t'⟩ => ⟨.raised, t'⟩
    | ⟨.ok ok, t'⟩ =>
      match mainLoop apiKey generate_desc dry_run oracle (i + 1) t' rest with
      | ⟨.raised, tf⟩ => ⟨.raised, tf⟩
      | ⟨.ok oks, tf⟩ => ⟨.ok (ok :: oks), tf⟩

/-- `main(argv)` from `main.py` lines 258-293, parameterized by the two
fetcher outputs and the initial table: concatenate the fetched lists,
deduplicate, and run the candidate loop. -/
def main_run (apiKey : Option String) (dry_run no_desc : Bool)
    (oracle : Nat → StepCfg) (t0 : List Row)
    (gh_items rss_items : List Candidate) : RunResult :=
  mainLoop apiKey (!no_desc) dry_run oracle 0 t0 (dedupe (gh_items ++ rss_items))

/-- An `<a>` tag inside a trending repo's `<h2>`: its text content and its
`href` attribute. -/
structure GHAnchor where
  text : String
  href : List Char
  deriving Repr, DecidableEq

/-- A trending repo's `<h2>` title tag, which may or may not contain an
`<a>` tag. -/
structure GHH2 where
  a_tag : Option GHAnchor
  deriving Repr, DecidableEq

/-- One parsed `<article class="Box-row">` element of the trending page:
an optional `<h2>` tag and the text of an optional `<p>` description tag. -/
structure GHRepo where
  h2_tag : Option GHH2
  p_text : Option String
  deriving Repr, DecidableEq

/-- `urllib.parse.urljoin("https://github.com", href)` for the root-relative
`href` values carried by the trending page's repo anchors: base followed by
the path. -/
def urljoin (base href : List Char) : List Char := base ++ href

/-- The loop body of `fetch_from_github_trending` (`main.py` lines 171-191):
`continue` when the repo has no `<h2>`, otherwise build the candidate dict.
`get_text(strip=True)` strips the text; the name additionally replaces
newlines with spaces. -/
def ghRepoToCandidate (repo : GHRepo) : Option Candidate :=
  match repo.h2_tag with
  | none => none
  | some h2 =>
    let name := match h2.a_tag with
      | some a => (pyStripS a.text).replace "\n" " "
      | none => ""
    let link := match h2.a_tag with
      | some a => urljoin "https://github.com".toList a.href
      | none => []
    let desc := match repo.p_text with
      | some p => pyStripS p
      | none => ""
    some ⟨name, link, "Open-source", "", "github_trending", desc, none, none⟩

/-- `fetch_from_github_trending(language, since, max_items)` from `main.py`
lines 158-196.  `resp` is the exogenous outcome of the HTTP GET,
`raise_for_status`, and the HTML parse: `.raised` for any exception up to and
including parsing, `.ok repos` for the parsed `Box-row` articles.  The whole
body sits in a `try` whose `except` logs and returns `[]`. -/
def fetch_from_github_trending (resp : PyOutcome (List GHRepo))
    (max_items : Nat) : PyOutcome (List Candidate) :=
  match resp with
  | .raised => .ok []
  | .ok repos => .ok ((repos.take max_items).filterMap ghRepoToCandidate)

/-- One parsed `<item>` of the RSS feed: optional `title`, `link` and
`description` child tags (text content when present). -/
structure RSSItem where
  title : Option String
  link : Option String
  description : Option String
  deriving Repr, DecidableEq

/-- The loop body of `fetch_from_rss` (`main.py` lines 213-224): build the
candidate dict, with `""` for each missing child tag. -/
def rssItemToCandidate (feed_url : String) (item : RSSItem) : Candidate :=
  { name := item.title.getD ""
    url := (item.link.getD "").toList
    category := "Unknown"
    logo := ""
    source := feed_url
    short := item.description.getD ""
    tags := none
    description := none }

/-- `fetch_from_rss(feed_url, max_items)` from `main.py` lines 198-232.
`resp` is the exogenous outcome of the HTTP GET, `raise_for_status`, and the
XML parse.  Both `except` clauses (HTTPError and the general one) log and
return `[]`. -/
def fetch_from_rss (feed_url : String) (resp : PyOutcome (List RSSItem))
    (max_items : Nat) : PyOutcome (List Candidate) :=
  match resp with
  | .raised => .ok []
  | .ok items => .ok ((items.take max_items).map (rssItemToCandidate feed_url))

/-- An outbound HTTP request with its `Authorization` header value. -/
structure HttpRequest where
  url : String
  authorization : String
  deriving Repr, DecidableEq

/-- The hard-coded ProductHunt GraphQL request issued at module level
(`main.py` lines 39-40). -/
def producthuntRequest : HttpRequest :=
  ⟨"https://api.producthunt.com/v2/api/graphql",
   "7w3eo0YVckXTS5hzztYhtPFT423eJ3_ZuzLtjZnVxj0"⟩

/-- Running the script: module import first executes the top-level statements,
among them the unguarded `requests.get` of `main.py` line 40 (outcome
`phGet`); only if import completes does `main()` run.  Returns the list of
HTTP requests issued at import time together with the run's result; an
exception from the import-time GET propagates (nothing catches it) and aborts
the run with the table untouched. -/
def run_script (phGet : PyOutcome Unit) (apiKey : Option String)
    (dry_run no_desc : Bool) (oracle : Nat → StepCfg) (t0 : List Row)
    (gh_items rss_items : List Candidate) : List HttpRequest × RunResult :=
  ([producthuntRequest],
   match phGet with
   | .raised => ⟨.raised, t0⟩
   | .ok _ => main_run apiKey dry_run no_desc oracle t0 gh_items rss_items)

/-- A GitHub-trending candidate of the end-to-end example. -/
def candRepoA : Candidate :=
  ⟨"repoA", "https://github.com/x/repoA".toList, "Open-source", "",
   "github_trending", "", none, none⟩

/-- A second GitHub-trending candidate sharing repoA's url. -/
def candRepoB : Candidate :=
  ⟨"repoB", "https://github.com/x/repoA".toList, "Open-source", "",
   "github_trending", "", none, none⟩

/-- The RSS candidate of the end-to-end example. -/
def candToolC : Candidate :=
  ⟨"Tool C", "https://example.com/c".toList, "Unknown", "",
   "https://www.producthunt.com/feed", "", none, none⟩

/-- A candidate whose url is whitespace-only. -/
def candBlank : Candidate :=
  ⟨"blank", "   ".toList, "Misc", "", "unknown", "", none, none⟩

/-- A sample record for witnesses and counterexamples. -/
def recSample : Record :=
  ⟨"repoA", "https://github.com/x/repoA".toList, "Open-source", "", "", "",
   "github_trending"⟩

/-- A record with recSample's url but different mutable fields. -/
def recSample2 : Record :=
  ⟨"repoA v2", "https://github.com/x/repoA".toList, "AI", "a tool", "logo",
   "tag", "github_trending"⟩

theorem gen_result_ok (apiKey : Option String) (genCall : PyOutcome String)
    (name category : String) (url : List Char) :
    ∃ s, (generate_description_gemini apiKey genCall name category url).result
      = .ok s := by
  unfold generate_description_gemini
  split
  · exact ⟨"", rfl⟩
  · cases genCall with
    | ok text => exact ⟨_, rfl⟩
    | raised => exact ⟨"", rfl⟩

theorem build_record_never_raises (apiKey : Option String)
    (genCall : PyOutcome String) (generate_desc : Bool) (cand : Candidate) :
    ∃ r, build_record apiKey genCall generate_desc cand = .ok r := by
  dsimp only [build_record]
  by_cases hc : (decide (pyOrOpt cand.description "" = "") && generate_desc)
      = true
  · rw [if_pos hc]
    obtain ⟨s, hs⟩ := gen_result_ok apiKey genCall (pyOrS cand.name "")
      (pyOrS cand.category (pyOrS cand.short "Misc")) (pyOrL cand.url [])
    rw [hs]
    exact ⟨_, rfl⟩
  · rw [if_neg hc]
    exact ⟨_, rfl⟩

theorem upsert_result_ok (record : Record) (dry_run : Bool) (db : DBConfig)
    (t : List Row) (now : Nat) (hconn : db.connectRaises = false) :
    ∃ b, (upsert_tool record dry_run db t now).result = .ok b := by
  obtain ⟨cn, ex, cm⟩ := db
  cases cn with
  | false =>
    cases dry_run <;> cases ex <;> cases cm <;>
      first
        | exact ⟨true, rfl⟩
        | exact ⟨false, rfl⟩
  | true => simp at hconn

theorem process_candidate_ok (apiKey : Option String)
    (genCall : PyOutcome String) (generate_desc dry_run : Bool) (db : DBConfig)
    (now : Nat) (cand : Candidate) (t : List Row)
    (hconn : db.connectRaises = false) :
    ∃ b t', process_candidate apiKey genCall generate_desc dry_run db now cand t
      = ⟨.ok b, t'⟩ := by
  obtain ⟨r, hr⟩ := build_record_never_raises apiKey genCall generate_desc cand
  obtain ⟨b, hb⟩ := upsert_result_ok r dry_run db t now hconn
  unfold process_candidate
  rw [hr]
  exact ⟨b, _, by rw [← hb]⟩

/-- C1: for every input sequence of candidates, the deduplication step of the
orchestrator produces a subsequence (first-seen order preserved), no two kept
elements have equal trimmed urls, and every kept element's url has a
non-whitespace character (so empty or whitespace-only urls are excluded). -/
theorem dedupe_order_unique_nonblank (cands : List Candidate) :
    (dedupe cands).Sublist cands
      ∧ (dedupe cands).Pairwise (fun a b => pyStrip a.url ≠ pyStrip b.url)
      ∧ ∀ c ∈ dedupe cands, ¬∀ ch ∈ c.url, ch.isWhitespace := by
  refine ⟨dedupeGo_sublist [] cands, dedupeGo_pairwise [] cands, ?_⟩
  intro c hc hws
  exact (dedupeGo_not_seen [] cands c hc).2 (pyStrip_eq_nil_of_all_ws c.url hws)

/-- C1 witness: the dedupe guarantees instantiated on a concrete list with a
whitespace-only url and a duplicated url. -/
theorem dedupe_order_unique_nonblank_witness :
    (dedupe [candBlank, candRepoA, candRepoB]).Sublist
        [candBlank, candRepoA, candRepoB]
      ∧ (dedupe [candBlank, candRepoA, candRepoB]).Pairwise
          (fun a b => pyStrip a.url ≠ pyStrip b.url)
      ∧ ∀ c ∈ dedupe [candBlank, candRepoA, candRepoB],
          ¬∀ ch ∈ c.url, ch.isWhitespace :=
  dedupe_order_unique_nonblank [candBlank, candRepoA, candRepoB]

/-- C2 counterexample: when opening the database connection raises, the
exception escapes `upsert_tool` (the claim says it would be caught and
`False` returned). -/
theorem upsert_connect_exception_escapes :
    (upsert_tool recSample false ⟨true, false, false⟩ [] 0).result
      = .raised := rfl

/-- C2 (amended): an exception raised inside the `try` block (by `execute` or
`commit`) is caught: `upsert_tool` logs it, returns `False`, closes the
connection and leaves the table unchanged; but an exception from
`get_db_connection()` itself, which is called outside the `try`, propagates
to the caller with no connection opened or closed. -/
theorem upsert_exception_handling (record : Record) (db : DBConfig)
    (t : List Row) (now : Nat) :
    (db.connectRaises = false →
        (db.executeRaises = true ∨ db.commitRaises = true) →
        upsert_tool record false db t now = ⟨.ok false, true, true, t⟩)
      ∧ (db.connectRaises = true →
        upsert_tool record false db t now = ⟨.raised, false, false, t⟩) := by
  obtain ⟨cn, ex, cm⟩ := db
  constructor
  · intro hc hf
    simp only at hc
    subst hc
    rcases hf with h | h <;> simp only at h <;> subst h <;>
      simp [upsert_tool]
  · intro hc
    simp only at hc
    subst hc
    simp [upsert_tool]

/-- C2 amended-claim witness: an `execute` failure is caught and reported as
`False` with the connection closed and the table unchanged. -/
theorem upsert_exception_handling_witness :
    upsert_tool recSample false ⟨false, true, false⟩ [] 0
      = ⟨.ok false, true, true, []⟩ :=
  (upsert_exception_handling recSample ⟨false, true, false⟩ [] 0).1 rfl
    (Or.inl rfl)

/-- C3: with dry-run enabled, `upsert_tool` returns `True` without opening a
connection or executing anything, and the table is unchanged for every
record, driver behaviour, table and time. -/
theorem upsert_dry_run_no_touch (record : Record) (db : DBConfig)
    (t : List Row) (now : Nat) :
    upsert_tool record true db t now = ⟨.ok true, false, false, t⟩ := rfl

/-- C4: with the credential absent (unset or empty), the generator returns
`""` with no network call; with the credential present, an exception from the
generative call is caught and `""` returned; and in every case the result is
a returned string, never an escaped exception. -/
theorem gemini_gate_and_catch (apiKey : Option String)
    (genCall : PyOutcome String) (name category : String) (url : List Char) :
    (keyFalsy apiKey = true →
        generate_description_gemini apiKey genCall name category url
          = ⟨.ok "", false⟩)
      ∧ (keyFalsy apiKey = false → genCall = .raised →
        generate_description_gemini apiKey genCall name category url
          = ⟨.ok "", true⟩)
      ∧ ∃ s, (generate_description_gemini apiKey genCall name category url).result
          = .ok s := by
  refine ⟨?_, ?_, gen_result_ok apiKey genCall name category url⟩
  · intro hk
    simp [generate_description_gemini, hk]
  · intro hk hg
    subst hg
    simp [generate_description_gemini, hk]

/-- C4 witness: with the credential unset the generator returns `""` without
calling the network, even though the generative call would have succeeded. -/
theorem gemini_gate_and_catch_witness :
    generate_description_gemini none (.ok "text") "n" "c" [] = ⟨.ok "", false⟩ :=
  (gemini_gate_and_catch none (.ok "text") "n" "c" []).1 rfl

/-- C5: neither fetcher ever lets an exception escape: on every response
outcome each returns a list, and on an exception (unreachable host, HTTP
error status, parse failure) each returns the empty list. -/
theorem fetchers_never_raise (respG : PyOutcome (List GHRepo))
    (respR : PyOutcome (List RSSItem)) (feed_url : String) (nG nR : Nat) :
    (∃ lg, fetch_from_github_trending respG nG = .ok lg)
      ∧ (∃ lr, fetch_from_rss feed_url respR nR = .ok lr)
      ∧ fetch_from_github_trending .raised nG = .ok []
      ∧ fetch_from_rss feed_url .raised nR = .ok [] := by
  refine ⟨?_, ?_, rfl, rfl⟩
  · cases respG with
    | ok repos => exact ⟨_, rfl⟩
    | raised => exact ⟨[], rfl⟩
  · cases respR with
    | ok items => exact ⟨_, rfl⟩
    | raised => exact ⟨[], rfl⟩


/-- The rows of table `t` whose url equals `u`. -/
def rowsFor (t : List Row) (u : List Char) : List Row :=
  t.filter (fun row => row.url = u)

theorem rowsFor_nil_of_none (t : List Row) (u : List Char)
    (h : ∀ row ∈ t, row.url ≠ u) : rowsFor t u = [] := by
  unfold rowsFor
  rw [List.filter_eq_nil_iff]
  intro a ha
  simpa using h a ha

theorem recordRow_url (r : Record) (now : Nat) : (recordRow r now).url = r.url :=
  rfl

theorem updRow_url (r : Record) (now : Nat) (row : Row) :
    (if row.url = r.url then recordRow r now else row).url = row.url := by
  split
  · rename_i h
    rw [recordRow_url]
    exact h.symm
  · rfl

theorem rowsFor_update (t : List Row) (r : Record) (now : Nat)
    (hpw : t.Pairwise (fun a b => a.url ≠ b.url))
    (hany : t.any (fun row => row.url = r.url) = true) :
    rowsFor
        (t.map (fun row => if row.url = r.url then recordRow r now else row))
        r.url
      = [recordRow r now] := by
  induction t with
  | nil => simp at hany
  | cons hd tl ih =>
    rw [List.pairwise_cons] at hpw
    by_cases hu : hd.url = r.url
    · rw [List.map_cons, if_pos hu]
      have hnil : rowsFor
          (tl.map fun row => if row.url = r.url then recordRow r now else row)
          r.url = [] := by
        apply rowsFor_nil_of_none
        intro row hrow
        rw [List.mem_map] at hrow
        obtain ⟨x, hx, hfx⟩ := hrow
        rw [← hfx, updRow_url]
        intro hxu
        exact hpw.1 x hx (by rw [hu, hxu])
      unfold rowsFor at hnil ⊢
      rw [List.filter_cons_of_pos (by simp [recordRow_url]), hnil]
    · rw [List.map_cons, if_neg hu]
      have hany' : tl.any (fun row => row.url = r.url) = true := by
        rw [List.any_cons] at hany
        rcases (Bool.or_eq_true _ _).mp hany with h | h
        · exact absurd (of_decide_eq_true h) hu
        · exact h
      have htail := ih hpw.2 hany'
      unfold rowsFor at htail ⊢
      rw [List.filter_cons_of_neg (by simpa using hu)]
      exact htail

theorem rowsFor_applyUpsert (t : List Row) (r : Record) (now : Nat)
    (hpw : t.Pairwise (fun a b => a.url ≠ b.url)) :
    rowsFor (applyUpsert t r now) r.url = [recordRow r now] := by
  unfold applyUpsert
  split
  · rename_i hany
    exact rowsFor_update t r now hpw hany
  · rename_i hany
    have hnone : ∀ row ∈ t, row.url ≠ r.url := by
      intro row hrow hurl
      exact hany (List.any_eq_true.mpr ⟨row, hrow, by simpa using hurl⟩)
    have h1 := rowsFor_nil_of_none t r.url hnone
    unfold rowsFor at h1 ⊢
    rw [List.filter_append, h1]
    simp [recordRow_url]

theorem applyUpsert_pairwise (t : List Row) (r : Record) (now : Nat)
    (hpw : t.Pairwise (fun a b => a.url ≠ b.url)) :
    (applyUpsert t r now).Pairwise (fun a b => a.url ≠ b.url) := by
  unfold applyUpsert
  split
  · refine hpw.map _ ?_
    intro a b hab
    rw [updRow_url, updRow_url]
    exact hab
  · rename_i hany
    rw [List.pairwise_append]
    refine ⟨hpw, List.pairwise_singleton _ _, ?_⟩
    intro a ha b hb
    rw [List.mem_singleton] at hb
    subst hb
    rw [recordRow_url]
    intro hurl
    exact hany (List.any_eq_true.mpr ⟨a, ha, by simpa using hurl⟩)

theorem upsert_ok_table (record : Record) (t : List Row) (now : Nat) :
    (upsert_tool record false ⟨false, false, false⟩ t now).table
      = applyUpsert t record now := rfl

/-- C6: on a table whose rows have pairwise distinct urls, upserting `r1` and
then `r2` with the same url (connection, execute and commit all succeeding,
`now1 < now2`) leaves exactly one row for that url, carrying all of `r2`'s
mutable fields and `updated_on = now2`; after the first upsert the row for the
url had `updated_on = now1`, so `updated_on` advanced. -/
theorem upsert_twice_single_row (t : List Row) (r1 r2 : Record)
    (now1 now2 : Nat) (hpw : t.Pairwise (fun a b => a.url ≠ b.url))
    (hurl : r1.url = r2.url) (hnow : now1 < now2) :
    rowsFor ((upsert_tool r2 false ⟨false, false, false⟩
        ((upsert_tool r1 false ⟨false, false, false⟩ t now1).table) now2).table)
        r2.url = [recordRow r2 now2]
      ∧ rowsFor ((upsert_tool r1 false ⟨false, false, false⟩ t now1).table)
          r2.url = [recordRow r1 now1]
      ∧ (recordRow r1 now1).updated_on < (recordRow r2 now2).updated_on := by
  rw [upsert_ok_table, upsert_ok_table]
  have hpw1 := applyUpsert_pairwise t r1 now1 hpw
  refine ⟨rowsFor_applyUpsert _ r2 now2 hpw1, ?_, hnow⟩
  rw [← hurl]
  exact rowsFor_applyUpsert t r1 now1 hpw

/-- C6 witness: upserting `recSample` at time 0 then `recSample2` (same url,
different mutable fields) at time 1 into the empty table leaves exactly one
row for the url, with `recSample2`'s fields and `updated_on` advanced from 0
to 1. -/
theorem upsert_twice_single_row_witness :
    rowsFor ((upsert_tool recSample2 false ⟨false, false, false⟩
        ((upsert_tool recSample false ⟨false, false, false⟩ [] 0).table) 1).table)
        recSample2.url = [recordRow recSample2 1]
      ∧ rowsFor ((upsert_tool recSample false ⟨false, false, false⟩ [] 0).table)
          recSample2.url = [recordRow recSample 0]
      ∧ (recordRow recSample 0).updated_on < (recordRow recSample2 1).updated_on :=
  upsert_twice_single_row [] recSample recSample2 0 1 List.Pairwise.nil rfl
    (by decide)

/-- C7: when the only failures are ones `process_candidate` reports as a
`False` return or a logged error (equivalently, opening the database
connection never raises), the orchestrator loop runs `process_candidate` once
for every surviving candidate, whatever the per-candidate generator and
execute/commit outcomes: the run yields one boolean per candidate and never
aborts early. -/
theorem loop_processes_all (apiKey : Option String)
    (generate_desc dry_run : Bool) (oracle : Nat → StepCfg) (i : Nat)
    (t : List Row) (cands : List Candidate)
    (hconn : ∀ j, (oracle j).db.connectRaises = false) :
    ∃ oks tf, mainLoop apiKey generate_desc dry_run oracle i t cands
      = ⟨.ok oks, tf⟩ ∧ oks.length = cands.length := by
  induction cands generalizing i t with
  | nil => exact ⟨[], t, rfl, rfl⟩
  | cons c rest ih =>
    obtain ⟨b, t', hb⟩ := process_candidate_ok apiKey (oracle i).genCall
      generate_desc dry_run (oracle i).db (oracle i).now c t (hconn i)
    obtain ⟨oks, tf, hrec, hlen⟩ := ih (i + 1) t'
    refine ⟨b :: oks, tf, ?_, by simp [hlen]⟩
    simp only [mainLoop]
    rw [hb]
    dsimp only
    rw [hrec]

/-- C7 witness: with the generator raising and the SQL execute failing on
every iteration, both candidates are still processed (two booleans come
back). -/
theorem loop_processes_all_witness :
    ∃ oks tf, mainLoop (some "key") true false
        (fun _ => ⟨.raised, ⟨false, true, false⟩, 0⟩) 0 []
        [candRepoA, candToolC]
      = ⟨.ok oks, tf⟩ ∧ oks.length = [candRepoA, candToolC].length :=
  loop_processes_all (some "key") true false
    (fun _ => ⟨.raised, ⟨false, true, false⟩, 0⟩) 0 [] [candRepoA, candToolC]
    (fun _ => rfl)

/-- C8: feeding the orchestrator the two GitHub-trending candidates repoA and
repoB (duplicate url) and the RSS candidate Tool C, with a clean database and
a succeeding generator, persists exactly two rows: repoA (first occurrence of
its url kept) and Tool C, and both upserts report success. -/
theorem end_to_end_two_rows :
    main_run (some "key") false false
        (fun _ => ⟨.ok "generated", ⟨false, false, false⟩, 7⟩) []
        [candRepoA, candRepoB] [candToolC]
      = ⟨.ok [true, true],
         [recordRow ⟨"repoA", "https://github.com/x/repoA".toList,
            "Open-source", "generated", "", "", "github_trending"⟩ 7,
          recordRow ⟨"Tool C", "https://example.com/c".toList, "Unknown",
            "generated", "", "", "https://www.producthunt.com/feed"⟩ 7]⟩ := by
  rfl

theorem ghRepoToCandidate_no_description (repo : GHRepo) (c : Candidate)
    (h : ghRepoToCandidate repo = some c) :
    c.description = none ∧ c.tags = none := by
  unfold ghRepoToCandidate at h
  cases hh : repo.h2_tag with
  | none =>
    rw [hh] at h
    cases h
  | some h2 =>
    rw [hh] at h
    dsimp only at h
    injection h with h
    subst h
    exact ⟨rfl, rfl⟩

theorem rssItemToCandidate_no_description (feed_url : String)
    (item : RSSItem) :
    (rssItemToCandidate feed_url item).description = none
      ∧ (rssItemToCandidate feed_url item).tags = none :=
  ⟨rfl, rfl⟩

/-- C9: no fetcher sets the `description` key (the scraped summary goes only
into `short`), and for any candidate without a `description` key the record
built by `process_candidate` has as description either the empty string or
exactly the generator's output — never the scraped `short` text, which enters
the record only as the category fallback. -/
theorem scraped_short_not_description (respG : PyOutcome (List GHRepo))
    (respR : PyOutcome (List RSSItem)) (feed_url : String) (nG nR : Nat)
    (apiKey : Option String) (genCall : PyOutcome String) (gd : Bool)
    (cand : Candidate) (r : Record) :
    (∀ c ∈ (fetch_from_github_trending respG nG).okList, c.description = none)
      ∧ (∀ c ∈ (fetch_from_rss feed_url respR nR).okList, c.description = none)
      ∧ (cand.description = none →
          build_record apiKey genCall gd cand = .ok r →
          (r.description = ""
              ∨ (generate_description_gemini apiKey genCall (pyOrS cand.name "")
                  (pyOrS cand.category (pyOrS cand.short "Misc"))
                  (pyOrL cand.url [])).result = .ok r.description)
            ∧ r.category = pyOrS cand.category (pyOrS cand.short "Misc")) := by
  refine ⟨?_, ?_, ?_⟩
  · cases respG with
    | raised =>
      intro c hc
      simp [PyOutcome.okList, fetch_from_github_trending] at hc
    | ok repos =>
      intro c hc
      simp only [fetch_from_github_trending, PyOutcome.okList] at hc
      rw [List.mem_filterMap] at hc
      obtain ⟨repo, _, hrepo⟩ := hc
      exact (ghRepoToCandidate_no_description repo c hrepo).1
  · cases respR with
    | raised =>
      intro c hc
      simp [PyOutcome.okList, fetch_from_rss] at hc
    | ok items =>
      intro c hc
      simp only [fetch_from_rss, PyOutcome.okList] at hc
      rw [List.mem_map] at hc
      obtain ⟨item, _, hitem⟩ := hc
      rw [← hitem]
      exact (rssItemToCandidate_no_description feed_url item).1
  · intro hdesc hbr
    dsimp only [build_record] at hbr
    rw [hdesc] at hbr
    dsimp only [pyOrOpt] at hbr
    cases gd with
    | true =>
      rw [if_pos (by simp)] at hbr
      obtain ⟨s, hs⟩ := gen_result_ok apiKey genCall (pyOrS cand.name "")
        (pyOrS cand.category (pyOrS cand.short "Misc")) (pyOrL cand.url [])
      rw [hs] at hbr
      injection hbr with hbr
      subst hbr
      exact ⟨Or.inr hs, rfl⟩
    | false =>
      rw [if_neg (by simp)] at hbr
      injection hbr with hbr
      subst hbr
      exact ⟨Or.inl rfl, rfl⟩

/-- C9 witness: with the credential absent the record built for the repoA
candidate (scraped `short` empty key `description` absent) carries an empty
description, and its category is the candidate's own category. -/
theorem scraped_short_not_description_witness :
    ((⟨"repoA", "https://github.com/x/repoA".toList, "Open-source", "", "",
        "", "github_trending"⟩ : Record).description = ""
        ∨ (generate_description_gemini none (.ok "ignored")
            (pyOrS candRepoA.name "")
            (pyOrS candRepoA.category (pyOrS candRepoA.short "Misc"))
            (pyOrL candRepoA.url [])).result
          = .ok (⟨"repoA", "https://github.com/x/repoA".toList, "Open-source",
              "", "", "", "github_trending"⟩ : Record).description)
      ∧ (⟨"repoA", "https://github.com/x/repoA".toList, "Open-source", "", "",
          "", "github_trending"⟩ : Record).category
        = pyOrS candRepoA.category (pyOrS candRepoA.short "Misc") :=
  (scraped_short_not_description (.ok []) (.ok []) "feed" 0 0 none
    (.ok "ignored") true candRepoA
    ⟨"repoA", "https://github.com/x/repoA".toList, "Open-source", "", "", "",
      "github_trending"⟩).2.2 rfl rfl

/-- C10: on every invocation the module-level code issues the hard-coded
ProductHunt GraphQL GET (with its embedded authorization token) before any
orchestration, whatever the configuration; and when that request raises, the
exception propagates uncaught, aborting the whole run with the table
untouched and no candidate processed. -/
theorem import_time_get_unconditional (phGet : PyOutcome Unit)
    (apiKey : Option String) (dry_run no_desc : Bool) (oracle : Nat → StepCfg)
    (t0 : List Row) (gh rss : List Candidate) :
    (run_script phGet apiKey dry_run no_desc oracle t0 gh rss).1
        = [producthuntRequest]
      ∧ (run_script .raised apiKey dry_run no_desc oracle t0 gh rss).2
        = ⟨.raised, t0⟩ :=
  ⟨rfl, rfl⟩
